import Mathlib

/-!
# go-xlsx2csv: the format tables and `Workbook.Parse`

A shallow embedding of `src/xlsx2csv/xlsx2csv.go`.

* `FORMATS` and `STANDARD_FORMATS` (lines 39-110) are the two Go map literals, written as
  association lists in source order; indexing a map is `List.lookup`.
* `Workbook.Parse` (lines 135-180) is written in the source as statements over a DOM tree
  (`firstChild`, `namespaceURI`, `getElementsByTagName`, `getElementsByTagNameNS`, `_attrs`)
  with `try`/`except` blocks.  The receiver is mutated in place and a failure leaves the
  mutations made so far, so the embedding returns the receiver after the call together with
  the exception that escaped, if any.
-/

namespace Xlsx2csv

/-! ## Format tables (lines 39-110) -/

/-- The map literal `FORMATS` of lines 39-80: format code to semantic type.  Line 66 is a
raw (back-quoted) literal, so both backslashes of each pair it spells belong to the key;
line 69 is an interpreted (double-quoted) literal, so its pair denotes one backslash. -/
def FORMATS : List (String × String) :=
  [ ("general", "float"),
    ("0", "float"),
    ("0.00", "float"),
    ("#,##0", "float"),
    ("#,##0.00", "float"),
    ("0%", "percentage"),
    ("0.00%", "percentage"),
    ("0.00e+00", "float"),
    ("mm-dd-yy", "date"),
    ("d-mmm-yy", "date"),
    ("d-mmm", "date"),
    ("mmm-yy", "date"),
    ("h:mm am/pm", "date"),
    ("h:mm:ss am/pm", "date"),
    ("h:mm", "time"),
    ("h:mm:ss", "time"),
    ("m/d/yy h:mm", "date"),
    ("#,##0 ;(#,##0)", "float"),
    ("#,##0 ;[red](#,##0)", "float"),
    ("#,##0.00;(#,##0.00)", "float"),
    ("#,##0.00;[red](#,##0.00)", "float"),
    ("mm:ss", "time"),
    ("[h]:mm:ss", "time"),
    ("mmss.0", "time"),
    ("##0.0e+0", "float"),
    ("@", "float"),
    ("yyyy\\\\-mm\\\\-dd", "date"),
    ("dd/mm/yy", "date"),
    ("hh:mm:ss", "time"),
    ("dd/mm/yy\\ hh:mm", "date"),
    ("dd/mm/yyyy hh:mm:ss", "date"),
    ("yy-mm-dd", "date"),
    ("d-mmm-yyyy", "date"),
    ("m/d/yy", "date"),
    ("m/d/yyyy", "date"),
    ("dd-mmm-yyyy", "date"),
    ("dd/mm/yyyy", "date"),
    ("mm/dd/yy hh:mm am/pm", "date"),
    ("mm/dd/yyyy hh:mm:ss", "date"),
    ("yyyy-mm-dd hh:mm:ss", "date") ]

/-- The map literal `STANDARD_FORMATS` of lines 81-110: built-in format id to format code. -/
def STANDARD_FORMATS : List (Int × String) :=
  [ (0, "general"),
    (1, "0"),
    (2, "0.00"),
    (3, "#,##0"),
    (4, "#,##0.00"),
    (9, "0%"),
    (10, "0.00%"),
    (11, "0.00e+00"),
    (12, "# ?/?"),
    (13, "# ??/??"),
    (14, "mm-dd-yy"),
    (15, "d-mmm-yy"),
    (16, "d-mmm"),
    (17, "mmm-yy"),
    (18, "h:mm am/pm"),
    (19, "h:mm:ss am/pm"),
    (20, "h:mm"),
    (21, "h:mm:ss"),
    (22, "m/d/yy h:mm"),
    (37, "#,##0 ;(#,##0)"),
    (38, "#,##0 ;[red](#,##0)"),
    (39, "#,##0.00;(#,##0.00)"),
    (40, "#,##0.00;[red](#,##0.00)"),
    (45, "mm:ss"),
    (46, "[h]:mm:ss"),
    (47, "mmss.0"),
    (48, "##0.0e+0"),
    (49, "@") ]

/-! ## Failures (lines 113-123 and the exceptions the body of `Parse` can raise) -/

/-- What can escape a call.  The first three are the types declared at lines 113-123.  The
others are what the statements of lines 139-180 raise: `KeyError` for a dictionary
subscript with a missing key, `IndexError` for `[0]` on an empty list, `ValueError` for
`int` of a text that is no numeral, `TypeError` for a subscript or an `in` test on the
`None` that stands for the attributes of an element without attributes, `AttributeError`
for `getElementsByTagName` on a node that is not an element. -/
inductive Exception where
  | ErrInvalidXlsxFile (Name : String)
  | ErrSheetNotFound (SheetId : Int)
  | OutFileAlreadyExistsException (Name : String)
  | KeyError (key : String)
  | IndexError
  | ValueError (literal : String)
  | TypeError
  | AttributeError
  deriving DecidableEq, Repr

/-- Equality of results is decidable when equality of failures and of values is. -/
instance instDecidableEqExcept {ε α : Type} [DecidableEq ε] [DecidableEq α] :
    DecidableEq (Except ε α)
  | .ok a, .ok b => if h : a = b then isTrue (by rw [h]) else isFalse (fun h2 => h (by cases h2; rfl))
  | .error a, .error b =>
    if h : a = b then isTrue (by rw [h]) else isFalse (fun h2 => h (by cases h2; rfl))
  | .ok _, .error _ => isFalse (fun h => by cases h)
  | .error _, .ok _ => isFalse (fun h => by cases h)

/-! ## String primitives used by `Parse` -/

/-- Lower-casing of one character: the letters `A`-`Z` move to `a`-`z`. -/
def lowerChar (c : Char) : Char :=
  if 65 ≤ c.toNat ∧ c.toNat ≤ 90 then Char.ofNat (c.toNat + 32) else c

/-- The capital letters. -/
def upperLetters : List Char :=
  ['A', 'B', 'C', 'D', 'E', 'F', 'G', 'H', 'I', 'J', 'K', 'L', 'M', 'N', 'O', 'P', 'Q', 'R',
   'S', 'T', 'U', 'V', 'W', 'X', 'Y', 'Z']

/-- The method `.lower()` of lines 157 and 159, character by character.  Letters outside
`A`-`Z` are left as they are: the format tables and the text `false` it is compared with
are made of ASCII characters, and no character outside ASCII lower-cases to a letter of
`false` or to white space. -/
def lower (s : String) : String :=
  String.mk (s.data.map lowerChar)

/-- The characters `.strip()` removes: the code points for which `str.isspace` holds. -/
def isspace (c : Char) : Bool :=
  let n := c.toNat
  (9 ≤ n && n ≤ 13) || (28 ≤ n && n ≤ 32) || n == 133 || n == 160 || n == 5760 ||
  (8192 ≤ n && n ≤ 8202) || n == 8232 || n == 8233 || n == 8239 || n == 8287 || n == 12288

/-- The method `.strip()` of lines 157 and 159: drop white space at both ends. -/
def strip (s : String) : String :=
  String.mk ((s.data.dropWhile isspace).reverse.dropWhile isspace).reverse

/-- The slice `value[3:]` of lines 175 and 179: everything after the first three characters
(empty when there are three or fewer). -/
def sliceFrom3 (s : String) : String :=
  String.mk (s.data.drop 3)

/-- The call `len(value)` of line 174: the number of characters. -/
def len (s : String) : Nat :=
  s.data.length

/-- The code points of the digit zero of every decimal digit set `int` reads (Unicode
14.0, the tables of CPython 3.11): each is followed by its digits one to nine. -/
def decimalZeros : List Nat :=
  [48, 1632, 1776, 1984, 2406, 2534, 2662, 2790, 2918, 3046, 3174, 3302, 3430, 3558, 3664,
   3792, 3872, 4160, 4240, 6112, 6160, 6470, 6608, 6784, 6800, 6992, 7088, 7232, 7248,
   42528, 43216, 43264, 43472, 43504, 43600, 44016, 65296, 66720, 68912, 69734, 69872,
   69942, 70096, 70384, 70736, 70864, 71248, 71360, 71472, 71904, 72016, 72784, 73040,
   73120, 92768, 92864, 93008, 120782, 120792, 120802, 120812, 120822, 123200, 123632,
   125264, 130032]

/-- Value of a character as a decimal digit, if it is one. -/
def decimalValue (c : Char) : Option Nat :=
  match decimalZeros.find? (fun z => z ≤ c.toNat && c.toNat < z + 10) with
  | some z => some (c.toNat - z)
  | none => none

/-- The white space `int` skips around a numeral: that of `.strip()` without the four
separators U+001C to U+001F. -/
def isIntSpace (c : Char) : Bool :=
  isspace c && !(28 ≤ c.toNat && c.toNat ≤ 31)

/-- The longest numeral `int` converts, counted in digits (`sys.int_max_str_digits`). -/
def intMaxStrDigits : Nat := 4300

/-- Digits after the first one of a numeral read by `int`: digits, each optionally preceded
by one underscore.  Returns the value and the number of digits read. -/
def intDigits (acc count : Nat) : List Char → Option (Nat × Nat)
  | [] => some (acc, count)
  | c :: cs =>
    match decimalValue c with
    | some d => intDigits (acc * 10 + d) (count + 1) cs
    | none =>
      if c = '_' then
        match cs with
        | c2 :: ds =>
          match decimalValue c2 with
          | some d => intDigits (acc * 10 + d) (count + 1) ds
          | none => none
        | [] => none
      else none

/-- The call `int(text)` of lines 175-179 on a string: white space around the numeral is
skipped, one sign is allowed, then decimal digits of any script, single underscores
allowed between digits, at most `intMaxStrDigits` digits; anything else raises
`ValueError`. -/
def int (text : String) : Except Exception Int :=
  let body := ((text.data.dropWhile isIntSpace).reverse.dropWhile isIntSpace).reverse
  let signed : Bool × List Char :=
    match body with
    | c :: cs => if c = '-' then (true, cs) else if c = '+' then (false, cs) else (false, body)
    | [] => (false, [])
  match signed.2 with
  | c :: cs =>
    match decimalValue c with
    | some d =>
      match intDigits d 1 cs with
      | some (n, count) =>
        if count ≤ intMaxStrDigits then .ok (if signed.1 then - (n : Int) else (n : Int))
        else .error (.ValueError text)
      | none => .error (.ValueError text)
    | none => .error (.ValueError text)
  | [] => .error (.ValueError text)

/-! ## The DOM tree read by `Parse` -/

/-- An element node: its `namespaceURI` (absent when the element is in no namespace), its
`tagName` (the qualified name), its `localName`, its attributes (qualified attribute name
and value, namespace declarations included) and its element children in document order.
Text and comment children are not kept: no lookup made by `Parse` sees them.  The field
`_attrs` of the source is a dictionary when the element has attributes and `None` when it
has none; the empty attribute list stands for that `None`. -/
inductive Element where
  | mk (namespaceURI : Option String) (tagName : String) (localName : String)
      (attrs : List (String × String)) (childNodes : List Element)

/-- Field `namespaceURI`. -/
def Element.namespaceURI : Element → Option String
  | .mk ns _ _ _ _ => ns

/-- Field `tagName`. -/
def Element.tagName : Element → String
  | .mk _ t _ _ _ => t

/-- Field `localName`. -/
def Element.localName : Element → String
  | .mk _ _ l _ _ => l

/-- Field `_attrs`; the empty list is `None`. -/
def Element.attrs : Element → List (String × String)
  | .mk _ _ _ a _ => a

/-- Field `childNodes`, elements only. -/
def Element.childNodes : Element → List Element
  | .mk _ _ _ _ cs => cs

/-- A node that can stand first in a parsed document: the root element, or a comment, a
processing instruction or a document type written before it (`other`, with its node
name).  Such a node is in no namespace and has no `getElementsByTagName`. -/
inductive Node where
  | element (e : Element)
  | other (nodeName : String)

/-- The parsed manifest `workbookDoc`.  A parsed document always has a first node, which is
the root element unless something is written before it. -/
structure Document where
  firstChild : Node

/-- Test applied by `getElementsByTagName`: the qualified name matches (`*` matches all). -/
def matchesTag (name : String) (e : Element) : Bool :=
  name == "*" || e.tagName == name

/-- Test applied by `getElementsByTagNameNS`: local name and namespace match (`*` matches
all). -/
def matchesNS (nsURI localName : String) (e : Element) : Bool :=
  (localName == "*" || e.localName == localName) &&
    (nsURI == "*" || e.namespaceURI == some nsURI)

mutual
/-- All descendants of an element that pass `p`, in document order. -/
def Element.descendants (p : Element → Bool) : Element → List Element
  | .mk _ _ _ _ cs => descendantsOfList p cs
/-- Descendant search over a list of siblings: each sibling, then its descendants. -/
def descendantsOfList (p : Element → Bool) : List Element → List Element
  | [] => []
  | c :: cs => (if p c then [c] else []) ++ c.descendants p ++ descendantsOfList p cs
end

/-- The DOM method `getElementsByTagName(name)`. -/
def Element.getElementsByTagName (e : Element) (name : String) : List Element :=
  e.descendants (matchesTag name)

/-- The DOM method `getElementsByTagNameNS(namespaceURI, localName)`. -/
def Element.getElementsByTagNameNS (e : Element) (nsURI localName : String) : List Element :=
  e.descendants (matchesNS nsURI localName)

/-- Subscript `attrs[key].value`: `TypeError` when the element has no attributes (`attrs`
is `None`), `KeyError` when it has attributes but not this one. -/
def getItem (attrs : List (String × String)) (key : String) : Except Exception String :=
  match attrs with
  | [] => .error .TypeError
  | _ :: _ =>
    match attrs.lookup key with
    | some v => .ok v
    | none => .error (.KeyError key)

/-- Membership test `key in attrs`: `TypeError` when the element has no attributes
(`attrs` is `None`). -/
def hasKey (attrs : List (String × String)) (key : String) : Except Exception Bool :=
  match attrs with
  | [] => .error .TypeError
  | _ :: _ => .ok (attrs.lookup key).isSome

/-- Subscript `nodes[0]` on a node list: `IndexError` when the list is empty. -/
def first (nodes : List Element) : Except Exception Element :=
  match nodes with
  | n :: _ => .ok n
  | [] => .error .IndexError

/-- The branch on the root namespace written out at lines 139-142, 147-150, 156-159,
163-166 and 167-170: when `workbookDoc.firstChild.namespaceURI` is a non-empty string the
lookup on `scope` is `getElementsByTagNameNS` with that namespace, otherwise it is
`getElementsByTagName`. -/
def elementsNamed (root scope : Element) (name : String) : List Element :=
  match root.namespaceURI with
  | some ns => if ns ≠ "" then scope.getElementsByTagNameNS ns name
               else scope.getElementsByTagName name
  | none => scope.getElementsByTagName name

/-! ## `Workbook.Parse` (lines 125-180) -/

/-- One entry appended to `sheets` at line 180. -/
structure Sheet where
  name : String
  id : Int
  deriving DecidableEq, Repr

/-- The receiver of `Parse`: `Sheets` and `Date1904` are the fields of lines 126-129,
`appName` is the attribute the body assigns at lines 144-153. -/
structure Workbook where
  Sheets : List Sheet
  Date1904 : Bool
  appName : String
  deriving DecidableEq, Repr

/-- Lines 139-153, producer detection.  With no `fileVersion` element the name is
`unknown`; otherwise the `appName` attribute of the first one is read inside a `try` whose
handler catches `KeyError` only and answers `unknown`; any other exception escapes. -/
def detectAppName (root : Element) : Except Exception String :=
  let fileVersion := elementsNamed root root "fileVersion"
  if fileVersion.length = 0 then .ok "unknown"
  else
    match (first (elementsNamed root root "fileVersion")) >>= fun n => getItem n.attrs "appName" with
    | .ok v => .ok v
    | .error (.KeyError _) => .ok "unknown"
    | .error e => .error e

/-- Lines 156-159, the body of the `try` that reads the epoch flag: the `date1904`
attribute of the first `workbookPr` element, lower-cased, stripped, compared with `false`. -/
def readDate1904 (root : Element) : Except Exception Bool :=
  first (elementsNamed root root "workbookPr") >>= fun n =>
  getItem n.attrs "date1904" >>= fun v =>
  pure (strip (lower v) != "false")

/-- Line 174, the condition `self.appName == 'xl' and len(attrs["r:id"].value) > 2`.  The
right operand is evaluated only when the left one holds, and subscripts `attrs` without a
presence test. -/
def xlCondition (appName : String) (attrs : List (String × String)) : Except Exception Bool :=
  if appName = "xl" then
    getItem attrs "r:id" >>= fun v => pure (decide (len v > 2))
  else pure false

/-- Lines 175-176, the two arms under a true condition. -/
def xlBranch (attrs : List (String × String)) : Except Exception Int :=
  hasKey attrs "r:id" >>= fun present =>
  if present then getItem attrs "r:id" >>= fun v => int (sliceFrom3 v)
  else getItem attrs "sheetId" >>= fun v => int v

/-- Lines 178-179, the two arms under a false condition. -/
def otherBranch (attrs : List (String × String)) : Except Exception Int :=
  hasKey attrs "sheetId" >>= fun present =>
  if present then getItem attrs "sheetId" >>= fun v => int v
  else getItem attrs "r:id" >>= fun v => int (sliceFrom3 v)

/-- Lines 174-179, sheet-id resolution for one sheet node. -/
def resolveId (appName : String) (attrs : List (String × String)) : Except Exception Int :=
  xlCondition appName attrs >>= fun c =>
  if c then xlBranch attrs else otherBranch attrs

/-- Lines 172-180 for one sheet node, up to the value appended at line 180. -/
def sheetEntry (appName : String) (sheetNode : Element) : Except Exception Sheet :=
  let attrs := sheetNode.attrs
  getItem attrs "name" >>= fun name =>
  resolveId appName attrs >>= fun id =>
  pure { name := name, id := id }

/-- The loop of lines 171-180: entries are appended one by one; the first node that raises
ends the call, with the entries appended before it kept. -/
def appendSheets (w : Workbook) : List Element → Workbook × Option Exception
  | [] => (w, none)
  | sheetNode :: rest =>
    match sheetEntry w.appName sheetNode with
    | .ok s => appendSheets { w with Sheets := w.Sheets ++ [s] } rest
    | .error e => (w, some e)

/-- Lines 163-180: locate the first `sheets` element, list its `sheet` elements, run the
loop. -/
def parseSheets (root : Element) (w : Workbook) : Workbook × Option Exception :=
  match first (elementsNamed root root "sheets") with
  | .error e => (w, some e)
  | .ok sheets => appendSheets w (elementsNamed root sheets "sheet")

/-- Lines 155-161: the `try` around the epoch flag with its bare `except: pass`. -/
def setDate1904 (root : Element) (w : Workbook) : Workbook :=
  match readDate1904 root with
  | .ok b => { w with Date1904 := b }
  | .error _ => w

/-- The method `Workbook.Parse` (lines 135-180) on receiver `w`: the receiver after the
call and the exception that escaped, if any.  Line 138 is the unfinished statement
`if workbookDoc.firstChild`; the first node of a parsed document is an object that counts
as true, so whether the line is read as a test over lines 139-180 or as no statement at
all, those lines run.  They take `workbookDoc.firstChild` for the root element: when it is
not an element its `namespaceURI` is `None`, and the call of `getElementsByTagName` at
line 142 raises `AttributeError`. -/
def Workbook.Parse (w : Workbook) (workbookDoc : Document) : Workbook × Option Exception :=
  match workbookDoc.firstChild with
  | .other _ => (w, some .AttributeError)
  | .element root =>
    match detectAppName root with
    | .error e => (w, some e)
    | .ok a => parseSheets root (setDate1904 root { w with appName := a })

/-- Producer name as the specification words it: the `appName` attribute of the first
`fileVersion` element when element and attribute exist, `unknown` otherwise. -/
def specAppName (root : Element) : String :=
  match elementsNamed root root "fileVersion" with
  | [] => "unknown"
  | n :: _ =>
    match n.attrs.lookup "appName" with
    | some v => v
    | none => "unknown"

/-- A case and white-space variant of `false`, in the words of the specification: the five
letters of `false`, each in either case, with nothing but white space before and after. -/
def isFalseVariant (v : String) : Prop :=
  ∃ (pre post : List Char) (f a l s e : Char),
    v.data = pre ++ [f, a, l, s, e] ++ post ∧
    (∀ c ∈ pre, isspace c = true) ∧ (∀ c ∈ post, isspace c = true) ∧
    (f = 'f' ∨ f = 'F') ∧ (a = 'a' ∨ a = 'A') ∧ (l = 'l' ∨ l = 'L') ∧
    (s = 's' ∨ s = 'S') ∧ (e = 'e' ∨ e = 'E')

/-! ## Sample manifests -/

/-- Namespace of spreadsheet manifests. -/
def mainNS : String := "http://schemas.openxmlformats.org/spreadsheetml/2006/main"

/-- Namespace of the `r:` prefix. -/
def relNS : String := "http://schemas.openxmlformats.org/officeDocument/2006/relationships"

/-- An element in the manifest namespace with the given name, attributes and children. -/
def mainElem (name : String) (attrs : List (String × String)) (children : List Element) :
    Element :=
  .mk (some mainNS) name name attrs children

/-- A `sheet` element in the manifest namespace with the given attributes. -/
def sheetElem (attrs : List (String × String)) : Element :=
  mainElem "sheet" attrs []

/-- A manifest root that declares the two namespaces, with the given children. -/
def workbookElem (children : List Element) : Element :=
  mainElem "workbook" [("xmlns", mainNS), ("xmlns:r", relNS)] children

/-- A receiver before `Parse`: no sheets, 1900 epoch, no producer yet. -/
def emptyWorkbook : Workbook :=
  { Sheets := [], Date1904 := false, appName := "" }

/-- A receiver whose epoch flag is already set, with no sheets. -/
def flaggedWorkbook : Workbook :=
  { Sheets := [], Date1904 := true, appName := "" }

/-- A manifest written by the producer `xl` on the 1904 epoch flag `0`, with two sheets;
the second sheet has no `r:id` attribute. -/
def sampleRoot : Element :=
  workbookElem
    [ mainElem "fileVersion" [("appName", "xl")] [],
      mainElem "workbookPr" [("date1904", "0")] [],
      mainElem "sheets" []
        [ sheetElem [("name", "A"), ("sheetId", "1"), ("r:id", "rId7")],
          sheetElem [("name", "B"), ("sheetId", "5")] ] ]

/-- A manifest with neither `fileVersion` nor `workbookPr`, and one complete sheet. -/
def plainRoot : Element :=
  workbookElem
    [ mainElem "sheets" [] [ sheetElem [("name", "Only"), ("sheetId", "3"), ("r:id", "rId1")] ] ]

/-- A manifest in no namespace whose `workbookPr` element has attributes, none of them
`date1904`. -/
def noFlagRoot : Element :=
  .mk none "workbook" "workbook" []
    [ .mk none "workbookPr" "workbookPr" [("codeName", "ThisWorkbook")] [],
      .mk none "sheets" "sheets" []
        [ .mk none "sheet" "sheet" [("name", "S1"), ("r:id", "rId4")] [] ] ]

/-- A manifest whose `workbookPr` element has no attribute at all. -/
def emptyPrRoot : Element :=
  workbookElem
    [ mainElem "workbookPr" [] [],
      mainElem "sheets" [] [ sheetElem [("name", "S2"), ("sheetId", "9")] ] ]

/-- A manifest whose epoch flag is `false` in capitals between white space. -/
def capitalFalseRoot : Element :=
  workbookElem
    [ mainElem "workbookPr" [("date1904", " FALSE\t")] [],
      mainElem "sheets" [] [ sheetElem [("name", "S3"), ("sheetId", "2")] ] ]

/-- A manifest whose `fileVersion` element has no attribute at all, with one complete
sheet and the epoch flag `true`. -/
def bareVersionRoot : Element :=
  workbookElem
    [ mainElem "fileVersion" [] [],
      mainElem "workbookPr" [("date1904", "true")] [],
      mainElem "sheets" [] [ sheetElem [("name", "A"), ("sheetId", "1")] ] ]

/-- A manifest whose `fileVersion` element has attributes, none of them `appName`. -/
def anonymousVersionRoot : Element :=
  workbookElem
    [ mainElem "fileVersion" [("lastEdited", "4")] [],
      mainElem "sheets" [] [ sheetElem [("name", "A"), ("sheetId", "1")] ] ]

/-- A manifest whose only sheet element has `sheetId` and `r:id` but no `name`. -/
def namelessRoot : Element :=
  workbookElem [ mainElem "sheets" [] [ sheetElem [("sheetId", "1"), ("r:id", "rId1")] ] ]

/-- The sheets of `orderedRoot`: three sheet elements, the second one inside a wrapper, with
names and ids in no sorted order. -/
def orderedSheets : Element :=
  mainElem "sheets" []
    [ sheetElem [("name", "Zeta"), ("sheetId", "30"), ("r:id", "rId3")],
      mainElem "ext" [] [ sheetElem [("name", "Alpha"), ("r:id", "rId12")] ],
      sheetElem [("name", "Mid"), ("sheetId", "7")] ]

/-- A manifest with the three sheets of `orderedSheets`. -/
def orderedRoot : Element :=
  workbookElem [ mainElem "fileVersion" [("appName", "Calc")] [], orderedSheets ]

/-- A manifest whose root has no children at all. -/
def bareRoot : Element :=
  workbookElem []

/-- A manifest whose `sheets` element is not a child of the root but lies one level
deeper. -/
def nestedRoot : Element :=
  workbookElem
    [ mainElem "ext" []
        [ mainElem "sheets" [] [ sheetElem [("name", "Deep"), ("sheetId", "2")] ] ] ]

/-- A manifest that starts with a comment: its first node is not the root element. -/
def commentFirst : Document :=
  ⟨.other "#comment"⟩


/-! ## Characters and white space -/

theorem mem_upperLetters (c : Char) (h : 65 ≤ c.toNat ∧ c.toNat ≤ 90) : c ∈ upperLetters := by
  have hc := Char.ofNat_toNat c
  obtain ⟨h1, h2⟩ := h
  generalize c.toNat = k at hc h1 h2
  subst hc
  interval_cases k <;> decide

theorem isspace_lowerChar (c : Char) : isspace (lowerChar c) = isspace c := by
  by_cases h : 65 ≤ c.toNat ∧ c.toNat ≤ 90
  · have key : ∀ d ∈ upperLetters, isspace (lowerChar d) = isspace d := by decide
    exact key c (mem_upperLetters c h)
  · simp [lowerChar, h]

theorem lowerChar_of_isspace (c : Char) (h : isspace c = true) : lowerChar c = c := by
  by_cases hu : 65 ≤ c.toNat ∧ c.toNat ≤ 90
  · have key : ∀ d ∈ upperLetters, isspace d = false := by decide
    rw [key c (mem_upperLetters c hu)] at h
    cases h
  · simp [lowerChar, hu]

theorem lowerChar_eq_letter (c t : Char) (ht : t ∈ ['f', 'a', 'l', 's', 'e'])
    (h : lowerChar c = t) : c = t ∨ c = Char.ofNat (t.toNat - 32) := by
  by_cases hu : 65 ≤ c.toNat ∧ c.toNat ≤ 90
  · have key : ∀ d ∈ upperLetters, ∀ u ∈ ['f', 'a', 'l', 's', 'e'],
        lowerChar d = u → d = Char.ofNat (u.toNat - 32) := by decide
    exact Or.inr (key c (mem_upperLetters c hu) t ht h)
  · left
    simpa [lowerChar, hu] using h

theorem dropWhile_append_of_all (p : Char → Bool) (pre l : List Char)
    (h : ∀ c ∈ pre, p c = true) : (pre ++ l).dropWhile p = l.dropWhile p := by
  induction pre with
  | nil => rfl
  | cons a rest ih =>
    have ha : p a = true := h a (List.mem_cons_self _ _)
    simp only [List.cons_append, List.dropWhile_cons, ha, if_true]
    exact ih (fun c hc => h c (List.mem_cons_of_mem _ hc))

theorem map_lowerChar_of_all_space (l : List Char) (h : ∀ c ∈ l, isspace c = true) :
    l.map lowerChar = l := by
  induction l with
  | nil => rfl
  | cons a rest ih =>
    simp only [List.map_cons]
    rw [lowerChar_of_isspace a (h a (List.mem_cons_self _ _)),
      ih (fun c hc => h c (List.mem_cons_of_mem _ hc))]

theorem strip_lower_of_variant (v : String) (h : isFalseVariant v) :
    strip (lower v) = "false" := by
  obtain ⟨pre, post, f, a, l, s, e, hv, hpre, hpost, hf, ha, hl, hs, he⟩ := h
  have hf2 : lowerChar f = 'f' := by rcases hf with rfl | rfl <;> decide
  have ha2 : lowerChar a = 'a' := by rcases ha with rfl | rfl <;> decide
  have hl2 : lowerChar l = 'l' := by rcases hl with rfl | rfl <;> decide
  have hs2 : lowerChar s = 's' := by rcases hs with rfl | rfl <;> decide
  have he2 : lowerChar e = 'e' := by rcases he with rfl | rfl <;> decide
  have hdata : (lower v).data = pre ++ ('f' :: 'a' :: 'l' :: 's' :: 'e' :: post) := by
    show v.data.map lowerChar = _
    rw [hv]
    simp only [List.map_append, List.map_cons, List.map_nil, hf2, ha2, hl2, hs2, he2,
      map_lowerChar_of_all_space pre hpre, map_lowerChar_of_all_space post hpost,
      List.append_assoc, List.cons_append, List.nil_append]
  have h1 : (lower v).data.dropWhile isspace = 'f' :: 'a' :: 'l' :: 's' :: 'e' :: post := by
    rw [hdata, dropWhile_append_of_all isspace pre _ hpre]
    have : isspace 'f' = false := by decide
    simp only [List.dropWhile_cons, this]
    rfl
  have h2 : ('f' :: 'a' :: 'l' :: 's' :: 'e' :: post).reverse =
      post.reverse ++ ['e', 's', 'l', 'a', 'f'] := by
    simp
  have h3 : (post.reverse ++ ['e', 's', 'l', 'a', 'f']).dropWhile isspace =
      ['e', 's', 'l', 'a', 'f'] := by
    rw [dropWhile_append_of_all isspace post.reverse _
      (fun c hc => hpost c (List.mem_reverse.mp hc))]
    have : isspace 'e' = false := by decide
    simp only [List.dropWhile_cons, this]
    rfl
  show String.mk (((lower v).data.dropWhile isspace).reverse.dropWhile isspace).reverse = _
  rw [h1, h2, h3]
  rfl

theorem map_eq_false_letters (core : List Char)
    (h : core.map lowerChar = ['f', 'a', 'l', 's', 'e']) :
    ∃ f a l s e, core = [f, a, l, s, e] ∧ lowerChar f = 'f' ∧ lowerChar a = 'a' ∧
      lowerChar l = 'l' ∧ lowerChar s = 's' ∧ lowerChar e = 'e' := by
  rcases core with _ | ⟨f, _ | ⟨a, _ | ⟨l, _ | ⟨s, _ | ⟨e, _ | ⟨x, rest⟩⟩⟩⟩⟩⟩ <;>
    simp at h
  obtain ⟨h1, h2, h3, h4, h5⟩ := h
  exact ⟨f, a, l, s, e, rfl, h1, h2, h3, h4, h5⟩

theorem variant_of_strip_lower (v : String) (h : strip (lower v) = "false") :
    isFalseVariant v := by
  have h1 : (((v.data.map lowerChar).dropWhile isspace).reverse.dropWhile isspace).reverse =
      ['f', 'a', 'l', 's', 'e'] := congrArg String.data h
  have h2 : ((v.data.map lowerChar).dropWhile isspace).reverse.dropWhile isspace =
      ['e', 's', 'l', 'a', 'f'] := by
    have := congrArg List.reverse h1
    simpa using this
  have h3 : (v.data.map lowerChar).dropWhile isspace =
      ['f', 'a', 'l', 's', 'e'] ++
        (((v.data.map lowerChar).dropWhile isspace).reverse.takeWhile isspace).reverse := by
    have hsplit := List.takeWhile_append_dropWhile isspace
      ((v.data.map lowerChar).dropWhile isspace).reverse
    rw [h2] at hsplit
    have := congrArg List.reverse hsplit
    simpa using this.symm
  have h4 : v.data.map lowerChar =
      (v.data.map lowerChar).takeWhile isspace ++ (['f', 'a', 'l', 's', 'e'] ++
        (((v.data.map lowerChar).dropWhile isspace).reverse.takeWhile isspace).reverse) := by
    rw [← h3]
    exact (List.takeWhile_append_dropWhile isspace _).symm
  obtain ⟨pre, rest, hsplit1, hpre, hrest⟩ := List.map_eq_append_iff.mp h4
  obtain ⟨core, post, hsplit2, hcore, hpost⟩ := List.map_eq_append_iff.mp hrest
  obtain ⟨f, a, l, s, e, hc, hf, ha, hl, hs, he⟩ := map_eq_false_letters core hcore
  refine ⟨pre, post, f, a, l, s, e, ?_, ?_, ?_, ?_, ?_, ?_, ?_, ?_⟩
  · rw [hsplit1, hsplit2, hc, List.append_assoc]
  · intro c hc2
    have hm : lowerChar c ∈ (v.data.map lowerChar).takeWhile isspace := by
      rw [← hpre]; exact List.mem_map_of_mem _ hc2
    have := List.mem_takeWhile_imp hm
    rwa [isspace_lowerChar] at this
  · intro c hc2
    have hm : lowerChar c ∈
        (((v.data.map lowerChar).dropWhile isspace).reverse.takeWhile isspace).reverse := by
      rw [← hpost]; exact List.mem_map_of_mem _ hc2
    have := List.mem_takeWhile_imp (List.mem_reverse.mp hm)
    rwa [isspace_lowerChar] at this
  · rcases lowerChar_eq_letter f 'f' (by decide) hf with h | h
    · exact Or.inl h
    · exact Or.inr (h.trans (by decide))
  · rcases lowerChar_eq_letter a 'a' (by decide) ha with h | h
    · exact Or.inl h
    · exact Or.inr (h.trans (by decide))
  · rcases lowerChar_eq_letter l 'l' (by decide) hl with h | h
    · exact Or.inl h
    · exact Or.inr (h.trans (by decide))
  · rcases lowerChar_eq_letter s 's' (by decide) hs with h | h
    · exact Or.inl h
    · exact Or.inr (h.trans (by decide))
  · rcases lowerChar_eq_letter e 'e' (by decide) he with h | h
    · exact Or.inl h
    · exact Or.inr (h.trans (by decide))

theorem strip_lower_eq_false_iff (v : String) :
    strip (lower v) = "false" ↔ isFalseVariant v :=
  ⟨variant_of_strip_lower v, strip_lower_of_variant v⟩

/-! ## Attribute dictionaries -/

theorem getItem_of_lookup_some {attrs : List (String × String)} {key v : String}
    (h : attrs.lookup key = some v) : getItem attrs key = .ok v := by
  cases attrs with
  | nil => simp [List.lookup] at h
  | cons p rest => simp [getItem, h]

theorem getItem_of_lookup_none {attrs : List (String × String)} {key : String}
    (hne : attrs ≠ []) (h : attrs.lookup key = none) :
    getItem attrs key = .error (.KeyError key) := by
  cases attrs with
  | nil => exact absurd rfl hne
  | cons p rest => simp [getItem, h]

theorem getItem_eq_ok_iff (attrs : List (String × String)) (key v : String) :
    getItem attrs key = .ok v ↔ attrs.lookup key = some v := by
  constructor
  · intro h
    cases attrs with
    | nil => simp [getItem] at h
    | cons p rest =>
      cases hl : List.lookup key (p :: rest) with
      | none => simp [getItem, hl] at h
      | some u => simp [getItem, hl] at h; rw [h]
  · exact getItem_of_lookup_some

theorem mem_of_lookup_eq_some {α β : Type} [BEq α] [LawfulBEq α] (l : List (α × β))
    (a : α) (b : β) (h : l.lookup a = some b) : (a, b) ∈ l := by
  induction l with
  | nil => cases h
  | cons p rest ih =>
    obtain ⟨k, v⟩ := p
    by_cases hk : a == k
    · have hak : a = k := beq_iff_eq.mp hk
      subst hak
      simp [List.lookup] at h
      subst h
      exact List.mem_cons_self _ _
    · have : rest.lookup a = some b := by
        simpa [List.lookup, hk] using h
      exact List.mem_cons_of_mem _ (ih this)

/-! ## Stages of `Parse` -/

theorem detectAppName_of_no_fileVersion {root : Element}
    (h : elementsNamed root root "fileVersion" = []) : detectAppName root = .ok "unknown" := by
  simp [detectAppName, h]

theorem detectAppName_of_appName {root n : Element} {rest : List Element} {v : String}
    (h : elementsNamed root root "fileVersion" = n :: rest)
    (hv : n.attrs.lookup "appName" = some v) : detectAppName root = .ok v := by
  simp [detectAppName, h, first, getItem_of_lookup_some hv, bind, Except.bind]

theorem detectAppName_of_no_appName {root n : Element} {rest : List Element}
    (h : elementsNamed root root "fileVersion" = n :: rest) (hne : n.attrs ≠ [])
    (hv : n.attrs.lookup "appName" = none) : detectAppName root = .ok "unknown" := by
  simp [detectAppName, h, first, getItem_of_lookup_none hne hv, bind, Except.bind]

theorem detectAppName_of_no_attrs {root n : Element} {rest : List Element}
    (h : elementsNamed root root "fileVersion" = n :: rest) (he : n.attrs = []) :
    detectAppName root = .error .TypeError := by
  simp [detectAppName, h, first, he, getItem, bind, Except.bind]

theorem detectAppName_error {root : Element} {e : Exception}
    (h : detectAppName root = .error e) : e = .TypeError := by
  cases hfv : elementsNamed root root "fileVersion" with
  | nil => rw [detectAppName_of_no_fileVersion hfv] at h; cases h
  | cons n rest =>
    by_cases he : n.attrs = []
    · rw [detectAppName_of_no_attrs hfv he] at h
      cases h
      rfl
    · cases hl : n.attrs.lookup "appName" with
      | none => rw [detectAppName_of_no_appName hfv he hl] at h; cases h
      | some v => rw [detectAppName_of_appName hfv hl] at h; cases h

theorem detectAppName_of_spec_xl {root : Element} (h : specAppName root = "xl") :
    detectAppName root = .ok "xl" := by
  cases hfv : elementsNamed root root "fileVersion" with
  | nil =>
    have : specAppName root = "unknown" := by simp [specAppName, hfv]
    rw [this] at h
    exact absurd h (by decide)
  | cons n rest =>
    cases hl : n.attrs.lookup "appName" with
    | none =>
      have : specAppName root = "unknown" := by simp [specAppName, hfv, hl]
      rw [this] at h
      exact absurd h (by decide)
    | some v =>
      have : specAppName root = v := by simp [specAppName, hfv, hl]
      rw [this] at h
      rw [detectAppName_of_appName hfv hl, h]

theorem sheetEntry_ok_iff (appName : String) (n : Element) (s : Sheet) :
    sheetEntry appName n = .ok s ↔
      n.attrs.lookup "name" = some s.name ∧ resolveId appName n.attrs = .ok s.id := by
  cases s with
  | mk sn si =>
    cases hg : getItem n.attrs "name" with
    | error e =>
      have hne : n.attrs.lookup "name" ≠ some sn := by
        intro hl
        rw [getItem_of_lookup_some hl] at hg
        cases hg
      simp [sheetEntry, hg, bind, Except.bind, hne]
    | ok nm =>
      have hl := (getItem_eq_ok_iff _ _ _).mp hg
      cases hr : resolveId appName n.attrs with
      | error e => simp [sheetEntry, hg, hr, bind, Except.bind]
      | ok i => simp [sheetEntry, hg, hl, hr, bind, Except.bind, pure, Except.pure]

theorem appendSheets_Date1904 (nodes : List Element) :
    ∀ w : Workbook, (appendSheets w nodes).1.Date1904 = w.Date1904 := by
  induction nodes with
  | nil => intro w; rfl
  | cons n rest ih =>
    intro w
    unfold appendSheets
    cases h : sheetEntry w.appName n with
    | error e => rfl
    | ok s => simp only []; rw [ih]

theorem appendSheets_appName (nodes : List Element) :
    ∀ w : Workbook, (appendSheets w nodes).1.appName = w.appName := by
  induction nodes with
  | nil => intro w; rfl
  | cons n rest ih =>
    intro w
    unfold appendSheets
    cases h : sheetEntry w.appName n with
    | error e => rfl
    | ok s => simp only []; rw [ih]

theorem appendSheets_fails (nodes : List Element) :
    ∀ (w : Workbook), (∃ n ∈ nodes, ∃ e, sheetEntry w.appName n = .error e) →
      ∃ e, (appendSheets w nodes).2 = some e := by
  induction nodes with
  | nil => intro w h; obtain ⟨n, hn, _⟩ := h; cases hn
  | cons m rest ih =>
    intro w h
    unfold appendSheets
    cases hs : sheetEntry w.appName m with
    | error e2 => exact ⟨e2, rfl⟩
    | ok s =>
      obtain ⟨n, hn, e, he⟩ := h
      rcases List.mem_cons.mp hn with hnm | hnr
      · subst hnm; rw [hs] at he; cases he
      · exact ih _ ⟨n, hnr, e, he⟩

theorem appendSheets_all_ok (nodes : List Element) :
    ∀ (w : Workbook),
      (∀ n ∈ nodes, (∃ nm, n.attrs.lookup "name" = some nm) ∧
        ∃ i, resolveId w.appName n.attrs = .ok i) →
      (appendSheets w nodes).2 = none ∧
      (appendSheets w nodes).1.Sheets.map (fun s => some s.name) =
        w.Sheets.map (fun s => some s.name) ++ nodes.map (fun n => n.attrs.lookup "name") ∧
      (appendSheets w nodes).1.Sheets.map (fun s => Except.ok s.id) =
        w.Sheets.map (fun s => Except.ok s.id) ++
          nodes.map (fun n => resolveId w.appName n.attrs) := by
  induction nodes with
  | nil => intro w _; simp [appendSheets]
  | cons m rest ih =>
    intro w h
    obtain ⟨⟨nm, hnm⟩, ⟨i, hi⟩⟩ := h m (List.mem_cons_self _ _)
    have hs : sheetEntry w.appName m = .ok ⟨nm, i⟩ :=
      (sheetEntry_ok_iff w.appName m ⟨nm, i⟩).mpr ⟨hnm, hi⟩
    have hrest := ih { w with Sheets := w.Sheets ++ [⟨nm, i⟩] }
      (fun n hn => h n (List.mem_cons_of_mem _ hn))
    unfold appendSheets
    rw [hs]
    simp only []
    obtain ⟨h1, h2, h3⟩ := hrest
    refine ⟨h1, ?_, ?_⟩
    · rw [h2]; simp [hnm]
    · rw [h3]; simp [hi]

theorem parseSheets_Date1904 (root : Element) (w : Workbook) :
    (parseSheets root w).1.Date1904 = w.Date1904 := by
  unfold parseSheets
  cases h : first (elementsNamed root root "sheets") with
  | error e => rfl
  | ok s => simp only []; rw [appendSheets_Date1904]

theorem parseSheets_appName (root : Element) (w : Workbook) :
    (parseSheets root w).1.appName = w.appName := by
  unfold parseSheets
  cases h : first (elementsNamed root root "sheets") with
  | error e => rfl
  | ok s => simp only []; rw [appendSheets_appName]

theorem setDate1904_appName (root : Element) (w : Workbook) :
    (setDate1904 root w).appName = w.appName := by
  unfold setDate1904
  cases readDate1904 root <;> rfl

theorem setDate1904_Sheets (root : Element) (w : Workbook) :
    (setDate1904 root w).Sheets = w.Sheets := by
  unfold setDate1904
  cases readDate1904 root <;> rfl

theorem Parse_of_reach (w : Workbook) {root : Element} {a : String}
    (h : detectAppName root = .ok a) :
    w.Parse ⟨.element root⟩ = parseSheets root (setDate1904 root { w with appName := a }) := by
  simp [Workbook.Parse, h]

theorem Parse_of_detect_error (w : Workbook) {root : Element} {e : Exception}
    (h : detectAppName root = .error e) : w.Parse ⟨.element root⟩ = (w, some e) := by
  simp [Workbook.Parse, h]

/-! ## Producer detection and the epoch flag -/

/-- C8, the code at the failing input. On `bareVersionRoot`, whose `fileVersion` element
has no attribute at all, the attributes are `None`, the subscript of line 148 raises
`TypeError`, the handler of line 151 catches `KeyError` only, and `Parse` fails before
the epoch flag and the sheets are read. In every other case producer detection does what
the claim says: `unknown` without a `fileVersion` element, the `appName` attribute of the
first one when it is there, `unknown` when that element has attributes but not this one. -/
theorem C8_attributeless_fileVersion_raises :
    detectAppName bareVersionRoot = .error .TypeError ∧
    emptyWorkbook.Parse ⟨.element bareVersionRoot⟩ = (emptyWorkbook, some .TypeError) ∧
    detectAppName anonymousVersionRoot = .ok "unknown" ∧
    detectAppName plainRoot = .ok "unknown" ∧
    detectAppName sampleRoot = .ok "xl" ∧
    (∀ root : Element, elementsNamed root root "fileVersion" = [] →
      detectAppName root = .ok "unknown") ∧
    (∀ (root n : Element) (rest : List Element) (v : String),
      elementsNamed root root "fileVersion" = n :: rest →
      n.attrs.lookup "appName" = some v → detectAppName root = .ok v) ∧
    (∀ (root n : Element) (rest : List Element),
      elementsNamed root root "fileVersion" = n :: rest → n.attrs ≠ [] →
      n.attrs.lookup "appName" = none → detectAppName root = .ok "unknown") ∧
    (∀ (root n : Element) (rest : List Element),
      elementsNamed root root "fileVersion" = n :: rest → n.attrs = [] →
      detectAppName root = .error .TypeError) :=
  ⟨by decide, by decide, by decide, by decide, by decide,
   fun _ h => detectAppName_of_no_fileVersion h,
   fun _ _ _ _ h hv => detectAppName_of_appName h hv,
   fun _ _ _ h hne hv => detectAppName_of_no_appName h hne hv,
   fun _ _ _ h he => detectAppName_of_no_attrs h he⟩

/-- C4. On a manifest with root element `root` that has no `workbookPr` element, or whose
first `workbookPr` element has no `date1904` attribute, the read of the epoch flag raises
(`IndexError` without the element, `KeyError` when the element has other attributes,
`TypeError` when it has none), the bare `except` swallows it (lines 155-161 leave every
receiver as it was), `Date1904` keeps the value it had before the call (`false` by
default), and `Parse` goes on to the sheets: once producer detection has returned a name,
`Parse` is exactly the sheets stage run on the receiver with that name, and a failure of
`Parse` is a failure of producer detection or of the sheets stage. -/
theorem C4_epoch_read_failure_swallowed (w : Workbook) (root : Element)
    (h : elementsNamed root root "workbookPr" = [] ∨
      ∃ n rest, elementsNamed root root "workbookPr" = n :: rest ∧
        n.attrs.lookup "date1904" = none) :
    (readDate1904 root = .error .IndexError ∨
      readDate1904 root = .error (.KeyError "date1904") ∨
      readDate1904 root = .error .TypeError) ∧
    (∀ u : Workbook, setDate1904 root u = u) ∧
    (w.Parse ⟨.element root⟩).1.Date1904 = w.Date1904 ∧
    (w.Date1904 = false → (w.Parse ⟨.element root⟩).1.Date1904 = false) ∧
    (∀ a, detectAppName root = .ok a →
      w.Parse ⟨.element root⟩ = parseSheets root { w with appName := a }) ∧
    (∀ e, detectAppName root = .error e → w.Parse ⟨.element root⟩ = (w, some e)) := by
  have hread : readDate1904 root = .error .IndexError ∨
      readDate1904 root = .error (.KeyError "date1904") ∨
      readDate1904 root = .error .TypeError := by
    rcases h with h | ⟨n, rest, h, hl⟩
    · left; simp [readDate1904, h, first, bind, Except.bind]
    · by_cases he : n.attrs = []
      · right; right
        simp [readDate1904, h, first, getItem, he, bind, Except.bind]
      · right; left
        simp [readDate1904, h, first, getItem_of_lookup_none he hl, bind, Except.bind]
  have hset : ∀ u : Workbook, setDate1904 root u = u := by
    intro u
    rcases hread with hr | hr | hr <;> simp [setDate1904, hr]
  have hok : ∀ a, detectAppName root = .ok a →
      w.Parse ⟨.element root⟩ = parseSheets root { w with appName := a } := by
    intro a ha
    rw [Parse_of_reach w ha, hset]
  have herr : ∀ e, detectAppName root = .error e → w.Parse ⟨.element root⟩ = (w, some e) :=
    fun e he => Parse_of_detect_error w he
  have hd : (w.Parse ⟨.element root⟩).1.Date1904 = w.Date1904 := by
    cases hdet : detectAppName root with
    | error e => rw [herr e hdet]
    | ok a => rw [hok a hdet, parseSheets_Date1904]
  exact ⟨hread, hset, hd, fun h0 => hd.trans h0, hok, herr⟩

/-- C4 at `plainRoot` (no `workbookPr` element), at `noFlagRoot` (a `workbookPr` element
with another attribute) and at `emptyPrRoot` (a `workbookPr` element without attributes):
the epoch stays 1900 and the sheet is parsed. -/
theorem C4_epoch_read_failure_swallowed_witness :
    elementsNamed plainRoot plainRoot "workbookPr" = [] ∧
    (emptyWorkbook.Parse ⟨.element plainRoot⟩).1.Date1904 = false ∧
    emptyWorkbook.Parse ⟨.element plainRoot⟩ =
      ({ Sheets := [⟨"Only", 3⟩], Date1904 := false, appName := "unknown" }, none) ∧
    (emptyWorkbook.Parse ⟨.element noFlagRoot⟩).1.Date1904 = false ∧
    readDate1904 noFlagRoot = .error (.KeyError "date1904") ∧
    emptyWorkbook.Parse ⟨.element noFlagRoot⟩ =
      ({ Sheets := [⟨"S1", 4⟩], Date1904 := false, appName := "unknown" }, none) ∧
    readDate1904 emptyPrRoot = .error .TypeError ∧
    emptyWorkbook.Parse ⟨.element emptyPrRoot⟩ =
      parseSheets emptyPrRoot { emptyWorkbook with appName := "unknown" } ∧
    emptyWorkbook.Parse ⟨.element emptyPrRoot⟩ =
      ({ Sheets := [⟨"S2", 9⟩], Date1904 := false, appName := "unknown" }, none) :=
  ⟨by rfl,
   (C4_epoch_read_failure_swallowed emptyWorkbook plainRoot (Or.inl (by rfl))).2.2.2.1 rfl,
   by decide,
   (C4_epoch_read_failure_swallowed emptyWorkbook noFlagRoot
     (Or.inr ⟨.mk none "workbookPr" "workbookPr" [("codeName", "ThisWorkbook")] [], _,
       by rfl, by rfl⟩)).2.2.2.1 rfl,
   by decide,
   by decide,
   by decide,
   (C4_epoch_read_failure_swallowed emptyWorkbook emptyPrRoot
     (Or.inr ⟨mainElem "workbookPr" [] [], _, by rfl, by rfl⟩)).2.2.2.2.1 "unknown"
       (by decide),
   by decide⟩

/-- C2. On a manifest with root element `root` whose first `workbookPr` element carries a
`date1904` attribute with value `v`, lines 155-161 set `Date1904` to whether `v`,
lower-cased and then stripped, differs from `false`, and that is the value `Date1904` has
after `Parse` whenever `Parse` gets to these lines (producer detection has returned a
name). The flag becomes `false` exactly when `v` is a case and white-space variant of
`false` (its five letters in either case, with only white space around them) and `true`
for every other value, `0` included. -/
theorem C2_date1904_unless_false (w : Workbook) (root n : Element) (rest : List Element)
    (v : String) (hpr : elementsNamed root root "workbookPr" = n :: rest)
    (hv : n.attrs.lookup "date1904" = some v) :
    (∀ u : Workbook, (setDate1904 root u).Date1904 = decide (strip (lower v) ≠ "false")) ∧
    (strip (lower v) = "false" ↔ isFalseVariant v) ∧
    (∀ a, detectAppName root = .ok a →
      (w.Parse ⟨.element root⟩).1.Date1904 = decide (strip (lower v) ≠ "false") ∧
      (isFalseVariant v → (w.Parse ⟨.element root⟩).1.Date1904 = false) ∧
      (¬ isFalseVariant v → (w.Parse ⟨.element root⟩).1.Date1904 = true) ∧
      (v = "0" → (w.Parse ⟨.element root⟩).1.Date1904 = true)) := by
  have hread : readDate1904 root = .ok (strip (lower v) != "false") := by
    simp [readDate1904, hpr, first, getItem_of_lookup_some hv, bind, Except.bind, pure,
      Except.pure]
  have hset : ∀ u : Workbook,
      (setDate1904 root u).Date1904 = decide (strip (lower v) ≠ "false") := by
    intro u
    by_cases hx : strip (lower v) = "false" <;> simp [setDate1904, hread, bne, hx]
  refine ⟨hset, strip_lower_eq_false_iff v, ?_⟩
  intro a hreach
  have hd : (w.Parse ⟨.element root⟩).1.Date1904 = decide (strip (lower v) ≠ "false") := by
    rw [Parse_of_reach w hreach, parseSheets_Date1904]
    exact hset _
  refine ⟨hd, ?_, ?_, ?_⟩
  · intro h
    rw [hd]
    simp [(strip_lower_eq_false_iff v).mpr h]
  · intro h
    rw [hd]
    have : strip (lower v) ≠ "false" := fun hx => h ((strip_lower_eq_false_iff v).mp hx)
    simp [this]
  · intro h; rw [hd, h]; decide

/-- C2 at `capitalFalseRoot`, whose flag is `FALSE` between a blank and a tab, on a
receiver whose flag was set: the epoch becomes 1900; and at `sampleRoot`, whose flag is
`0`: the epoch becomes 1904. -/
theorem C2_date1904_unless_false_witness :
    (flaggedWorkbook.Parse ⟨.element capitalFalseRoot⟩).1.Date1904 = false ∧
    (emptyWorkbook.Parse ⟨.element sampleRoot⟩).1.Date1904 = true ∧
    strip (lower " FALSE\t") = "false" ∧
    strip " false\t" = "false" ∧
    lower "FaLsE" = "false" :=
  ⟨((C2_date1904_unless_false flaggedWorkbook capitalFalseRoot
      (mainElem "workbookPr" [("date1904", " FALSE\t")] []) _ " FALSE\t"
      (by rfl) (by rfl)).2.2 "unknown" (by decide)).2.1
      ⟨[' '], ['\t'], 'F', 'A', 'L', 'S', 'E', by rfl, by decide, by decide,
        Or.inr rfl, Or.inr rfl, Or.inr rfl, Or.inr rfl, Or.inr rfl⟩,
   ((C2_date1904_unless_false emptyWorkbook sampleRoot
      (mainElem "workbookPr" [("date1904", "0")] []) _ "0"
      (by rfl) (by rfl)).2.2 "xl" (by decide)).2.2.2 rfl,
   by decide, by decide, by decide⟩

/-! ## Sheet descriptors -/

/-- C6, as stated, fails. At `namelessRoot` the one sheet node has an id that resolves
(to 1), yet line 173 raises `KeyError` on the missing `name` attribute, so after `Parse`
the list holds no descriptor for the one sheet element. At `bareVersionRoot` the one sheet
node is complete and its id resolves (to 1), yet `Parse` fails in producer detection and
the list stays empty. -/
theorem C6_counterexample :
    (elementsNamed namelessRoot (mainElem "sheets" []
        [ sheetElem [("sheetId", "1"), ("r:id", "rId1")] ]) "sheet").length = 1 ∧
    resolveId "unknown" [("sheetId", "1"), ("r:id", "rId1")] = .ok 1 ∧
    emptyWorkbook.Parse ⟨.element namelessRoot⟩ =
      ({ Sheets := [], Date1904 := false, appName := "unknown" },
        some (.KeyError "name")) ∧
    (elementsNamed bareVersionRoot (mainElem "sheets" []
        [ sheetElem [("name", "A"), ("sheetId", "1")] ]) "sheet").length = 1 ∧
    resolveId "unknown" [("name", "A"), ("sheetId", "1")] = .ok 1 ∧
    emptyWorkbook.Parse ⟨.element bareVersionRoot⟩ = (emptyWorkbook, some .TypeError) := by
  refine ⟨by rfl, by decide, by decide, by rfl, by decide, by decide⟩

/-- C6, amended. On a manifest with root element `root` whose first `sheets` element is
`sheets`, starting from an empty sheet list: if producer detection has returned a name and
every `sheet` element under `sheets` has a `name` attribute and an id that resolves
(lines 174-179 raise nothing), then after `Parse` the list holds exactly one descriptor
per `sheet` element, in document order, and the i-th descriptor carries the `name`
attribute of the i-th element. -/
theorem C6_descriptors_in_manifest_order (w : Workbook) (root sheets : Element)
    (rest : List Element) (a : String) (hw : w.Sheets = [])
    (hreach : detectAppName root = .ok a)
    (hs : elementsNamed root root "sheets" = sheets :: rest)
    (h : ∀ n ∈ elementsNamed root sheets "sheet",
      (∃ nm, n.attrs.lookup "name" = some nm) ∧ ∃ i, resolveId a n.attrs = .ok i) :
    (w.Parse ⟨.element root⟩).1.Sheets.length = (elementsNamed root sheets "sheet").length ∧
    (w.Parse ⟨.element root⟩).1.Sheets.map (fun s => some s.name) =
      (elementsNamed root sheets "sheet").map (fun n => n.attrs.lookup "name") := by
  have hp : w.Parse ⟨.element root⟩ =
      appendSheets (setDate1904 root { w with appName := a })
        (elementsNamed root sheets "sheet") := by
    rw [Parse_of_reach w hreach]
    simp [parseSheets, hs, first]
  have ha : (setDate1904 root { w with appName := a }).appName = a :=
    setDate1904_appName _ _
  have hsh : (setDate1904 root { w with appName := a }).Sheets = [] := by
    rw [setDate1904_Sheets]; exact hw
  have hall := appendSheets_all_ok (elementsNamed root sheets "sheet")
    (setDate1904 root { w with appName := a }) (by rw [ha]; exact h)
  rw [hsh] at hall
  rw [hp]
  obtain ⟨_, h2, _⟩ := hall
  refine ⟨?_, by simpa using h2⟩
  have hlen := congrArg List.length h2
  simpa using hlen

/-- C6 amended, at `orderedRoot`: three sheet elements, the second one nested, named
`Zeta`, `Alpha`, `Mid`; the descriptors come in that order. -/
theorem C6_descriptors_in_manifest_order_witness :
    (emptyWorkbook.Parse ⟨.element orderedRoot⟩).1.Sheets.length = 3 ∧
    (emptyWorkbook.Parse ⟨.element orderedRoot⟩).1.Sheets.map (fun s => some s.name) =
      [some "Zeta", some "Alpha", some "Mid"] ∧
    (emptyWorkbook.Parse ⟨.element orderedRoot⟩).1.Sheets =
      [⟨"Zeta", 30⟩, ⟨"Alpha", 12⟩, ⟨"Mid", 7⟩] :=
  have hl : elementsNamed orderedRoot orderedSheets "sheet" =
      [ sheetElem [("name", "Zeta"), ("sheetId", "30"), ("r:id", "rId3")],
        sheetElem [("name", "Alpha"), ("r:id", "rId12")],
        sheetElem [("name", "Mid"), ("sheetId", "7")] ] := by rfl
  have hthm := C6_descriptors_in_manifest_order emptyWorkbook orderedRoot orderedSheets
    [] "Calc" rfl (by decide) (by rfl)
    (by
      intro n hn
      rw [hl] at hn
      simp only [List.mem_cons, List.mem_singleton, List.not_mem_nil, or_false] at hn
      rcases hn with rfl | rfl | rfl
      · exact ⟨⟨"Zeta", by rfl⟩, ⟨30, by decide⟩⟩
      · exact ⟨⟨"Alpha", by rfl⟩, ⟨12, by decide⟩⟩
      · exact ⟨⟨"Mid", by rfl⟩, ⟨7, by decide⟩⟩)
  ⟨hthm.1.trans (by rw [hl]; rfl), hthm.2.trans (by rw [hl]; rfl), by decide⟩

/-! ## Failures of `Parse` -/

/-- C3, as stated, fails. The root of `bareRoot` has no child at all, hence no `sheets`
child, and `Parse` fails with `IndexError` (the subscript `[0]` of line 164), which is not
`ErrInvalidXlsxFile`; on `commentFirst`, where the first node of the manifest is not the
root element, `Parse` fails with `AttributeError`; and `nestedRoot`, whose root has no
`sheets` child but a deeper `sheets` element, is parsed without failure. -/
theorem C3_counterexample :
    bareRoot.childNodes = [] ∧
    emptyWorkbook.Parse ⟨.element bareRoot⟩ =
      ({ Sheets := [], Date1904 := false, appName := "unknown" }, some .IndexError) ∧
    emptyWorkbook.Parse commentFirst = (emptyWorkbook, some .AttributeError) ∧
    nestedRoot.childNodes.map Element.localName = ["ext"] ∧
    emptyWorkbook.Parse ⟨.element nestedRoot⟩ =
      ({ Sheets := [⟨"Deep", 2⟩], Date1904 := false, appName := "unknown" }, none) := by
  refine ⟨by rfl, by decide, by decide, by decide, by decide⟩

/-- C3, amended. In the two cases `Parse` fails, but not with `ErrInvalidXlsxFile`. When
the first node of the manifest is not the root element, `Parse` fails with
`AttributeError` and leaves the receiver as it was. When the root has no `sheets` element
among its descendants (in the root namespace, or by tag name when the root has none),
`Parse` fails, with `IndexError` whenever producer detection has returned a name, and adds
no sheet descriptor. -/
theorem C3_failure_without_root_or_sheets (w : Workbook) (doc : Document) :
    (∀ nodeName, doc.firstChild = .other nodeName →
      w.Parse doc = (w, some .AttributeError)) ∧
    (∀ root, doc.firstChild = .element root → elementsNamed root root "sheets" = [] →
      (∃ e, (w.Parse doc).2 = some e) ∧
      (∀ name, (w.Parse doc).2 ≠ some (.ErrInvalidXlsxFile name)) ∧
      (∀ a, detectAppName root = .ok a → (w.Parse doc).2 = some .IndexError) ∧
      (w.Parse doc).1.Sheets = w.Sheets) := by
  constructor
  · intro nodeName h
    cases doc with
    | mk fc =>
      cases h
      rfl
  · intro root hroot hnone
    cases doc with
    | mk fc =>
      cases hroot
      have hok : ∀ a, detectAppName root = .ok a →
          w.Parse ⟨.element root⟩ =
            (setDate1904 root { w with appName := a }, some .IndexError) := by
        intro a ha
        rw [Parse_of_reach w ha]
        simp [parseSheets, hnone, first]
      cases hdet : detectAppName root with
      | error e =>
        have he : e = .TypeError := detectAppName_error hdet
        subst he
        rw [Parse_of_detect_error w hdet]
        refine ⟨⟨_, rfl⟩, ?_, ?_, rfl⟩
        · intro name hname
          cases hname
        · intro a ha
          cases ha
      | ok a =>
        rw [hok a hdet]
        refine ⟨⟨_, rfl⟩, ?_, ?_, ?_⟩
        · intro name hname
          cases hname
        · intro a2 _
          rfl
        · exact setDate1904_Sheets _ _

/-- C3 amended, at `commentFirst` and at `bareRoot`. -/
theorem C3_failure_without_root_or_sheets_witness :
    emptyWorkbook.Parse commentFirst = (emptyWorkbook, some .AttributeError) ∧
    (emptyWorkbook.Parse ⟨.element bareRoot⟩).2 = some .IndexError ∧
    (emptyWorkbook.Parse ⟨.element bareRoot⟩).1.Sheets = [] :=
  ⟨(C3_failure_without_root_or_sheets emptyWorkbook commentFirst).1 "#comment" rfl,
   ((C3_failure_without_root_or_sheets emptyWorkbook ⟨.element bareRoot⟩).2
      bareRoot rfl (by rfl)).2.2.1 "unknown" (by decide),
   ((C3_failure_without_root_or_sheets emptyWorkbook ⟨.element bareRoot⟩).2
      bareRoot rfl (by rfl)).2.2.2⟩

/-! ## Sheet-id resolution -/

/-- C9. Under producer `xl` line 174 subscripts `attrs["r:id"]` before any presence test:
for attributes without `r:id` the condition itself raises (`KeyError` on `r:id`, or
`TypeError` when the node has no attribute at all), so id resolution fails whether or not
`sheetId` is there, and a manifest with such a sheet node makes `Parse` fail. Whenever the
condition of line 174 comes out true, `r:id` is present, so the arm of line 176 (the
`sheetId` fallback) is never the one taken: the branch of lines 175-176 always reads
`r:id`. -/
theorem C9_xl_reads_rid_before_testing_it :
    (∀ attrs : List (String × String), attrs.lookup "r:id" = none →
      ∃ e, xlCondition "xl" attrs = .error e ∧ resolveId "xl" attrs = .error e ∧
        (attrs ≠ [] → e = .KeyError "r:id") ∧ (attrs = [] → e = .TypeError)) ∧
    (∀ (w : Workbook) (root sheets n : Element) (rest : List Element),
      specAppName root = "xl" → elementsNamed root root "sheets" = sheets :: rest →
      n ∈ elementsNamed root sheets "sheet" → n.attrs.lookup "r:id" = none →
      ∃ e, (w.Parse ⟨.element root⟩).2 = some e) ∧
    (∀ (appName : String) (attrs : List (String × String)),
      xlCondition appName attrs = .ok true →
      hasKey attrs "r:id" = .ok true ∧
      xlBranch attrs = (getItem attrs "r:id" >>= fun v => int (sliceFrom3 v))) := by
  have hcond : ∀ attrs : List (String × String), attrs.lookup "r:id" = none →
      ∃ e, xlCondition "xl" attrs = .error e ∧ resolveId "xl" attrs = .error e ∧
        (attrs ≠ [] → e = .KeyError "r:id") ∧ (attrs = [] → e = .TypeError) := by
    intro attrs h
    by_cases he : attrs = []
    · subst he
      exact ⟨.TypeError, by decide, by decide, fun hne => absurd rfl hne, fun _ => rfl⟩
    · have hg := getItem_of_lookup_none he h
      refine ⟨.KeyError "r:id", ?_, ?_, fun _ => rfl, fun h0 => absurd h0 he⟩
      · simp [xlCondition, hg, bind, Except.bind]
      · simp [resolveId, xlCondition, hg, bind, Except.bind]
  refine ⟨hcond, ?_, ?_⟩
  · intro w root sheets n rest hxl hs hn hrid
    have hp : w.Parse ⟨.element root⟩ =
        appendSheets (setDate1904 root { w with appName := "xl" })
          (elementsNamed root sheets "sheet") := by
      rw [Parse_of_reach w (detectAppName_of_spec_xl hxl)]
      simp [parseSheets, hs, first]
    have ha : (setDate1904 root { w with appName := "xl" }).appName = "xl" :=
      setDate1904_appName _ _
    rw [hp]
    apply appendSheets_fails
    refine ⟨n, hn, ?_⟩
    rw [ha]
    obtain ⟨e, _, hres, _, _⟩ := hcond n.attrs hrid
    cases hg : getItem n.attrs "name" with
    | error e2 => exact ⟨e2, by simp [sheetEntry, hg, bind, Except.bind]⟩
    | ok nm => exact ⟨e, by simp [sheetEntry, hg, hres, bind, Except.bind]⟩
  · intro appName attrs h
    have hk : hasKey attrs "r:id" = .ok true := by
      unfold xlCondition at h
      split at h
      · cases attrs with
        | nil => simp [getItem, bind, Except.bind] at h
        | cons p rest =>
          cases hl : List.lookup "r:id" (p :: rest) with
          | none => simp [getItem, hl, bind, Except.bind] at h
          | some v => simp [hasKey, hl]
      · cases h
    exact ⟨hk, by simp [xlBranch, hk, bind, Except.bind]⟩

/-- C9 at `sampleRoot`: producer `xl`, second sheet with `sheetId` 5 and no `r:id`. The
first sheet is appended, then `Parse` fails with `KeyError` on `r:id`. -/
theorem C9_xl_reads_rid_before_testing_it_witness :
    (∃ e, resolveId "xl" [("name", "B"), ("sheetId", "5")] = .error e) ∧
    resolveId "xl" [("name", "B"), ("sheetId", "5")] = .error (.KeyError "r:id") ∧
    (∃ e, (emptyWorkbook.Parse ⟨.element sampleRoot⟩).2 = some e) ∧
    hasKey [("name", "A"), ("sheetId", "1"), ("r:id", "rId7")] "r:id" = .ok true :=
  ⟨(C9_xl_reads_rid_before_testing_it.1 [("name", "B"), ("sheetId", "5")] (by rfl)).elim
     (fun e he => ⟨e, he.2.1⟩),
   by decide,
   C9_xl_reads_rid_before_testing_it.2.1 emptyWorkbook sampleRoot
     (mainElem "sheets" []
        [ sheetElem [("name", "A"), ("sheetId", "1"), ("r:id", "rId7")],
          sheetElem [("name", "B"), ("sheetId", "5")] ])
     (sheetElem [("name", "B"), ("sheetId", "5")]) [] (by decide) (by rfl)
     (by
       have hl : elementsNamed sampleRoot (mainElem "sheets" []
           [ sheetElem [("name", "A"), ("sheetId", "1"), ("r:id", "rId7")],
             sheetElem [("name", "B"), ("sheetId", "5")] ]) "sheet" =
           [ sheetElem [("name", "A"), ("sheetId", "1"), ("r:id", "rId7")],
             sheetElem [("name", "B"), ("sheetId", "5")] ] := by rfl
       rw [hl]
       simp)
     (by rfl),
   (C9_xl_reads_rid_before_testing_it.2.2 "xl"
     [("name", "A"), ("sheetId", "1"), ("r:id", "rId7")] (by decide)).1⟩

/-- Sheet-id resolution case by case: with producer `xl` and an `r:id` value of more than
two characters the id is read from that value after its first three characters; with
another producer, or an `r:id` value of at most two characters, it is read from `sheetId`
when present and from `r:id` after its first three characters otherwise. -/
theorem resolveId_cases (appName : String) (attrs : List (String × String)) :
    (∀ v, appName = "xl" → attrs.lookup "r:id" = some v → len v > 2 →
      resolveId appName attrs = int (sliceFrom3 v)) ∧
    ((appName ≠ "xl" ∨ ∃ v, attrs.lookup "r:id" = some v ∧ len v ≤ 2) →
      (∀ s, attrs.lookup "sheetId" = some s → resolveId appName attrs = int s) ∧
      (attrs.lookup "sheetId" = none →
        resolveId appName attrs = (getItem attrs "r:id" >>= fun v => int (sliceFrom3 v)))) := by
  constructor
  · intro v hxl hl hlen
    have hg := getItem_of_lookup_some hl
    have hne : attrs ≠ [] := by
      intro h0; rw [h0] at hl; simp [List.lookup] at hl
    cases attrs with
    | nil => exact absurd rfl hne
    | cons p rest =>
      simp [resolveId, xlCondition, xlBranch, hasKey, hg, hxl, hl, hlen, bind,
        Except.bind, pure, Except.pure]
  · intro h
    have hc : xlCondition appName attrs = .ok false := by
      rcases h with h | ⟨v, hl, hlen⟩
      · simp [xlCondition, h, pure, Except.pure]
      · by_cases hxl : appName = "xl"
        · have : ¬ (len v > 2) := by omega
          simp [xlCondition, hxl, getItem_of_lookup_some hl, this, bind, Except.bind, pure,
            Except.pure]
        · simp [xlCondition, hxl, pure, Except.pure]
    constructor
    · intro s hs
      have hg := getItem_of_lookup_some hs
      cases attrs with
      | nil => simp [List.lookup] at hs
      | cons p rest =>
        simp [resolveId, hc, otherBranch, hasKey, hg, hs, bind, Except.bind]
    · intro hs
      cases attrs with
      | nil => simp [resolveId, hc, otherBranch, hasKey, getItem, bind, Except.bind]
      | cons p rest => simp [resolveId, hc, otherBranch, hasKey, hs, bind, Except.bind]

/-- C1, the code at the failing input. Producer `xl`, a sheet node with `name` and
`sheetId` 5 but no `r:id`: the rule of the claim puts this node in the second case and
gives id 5 (what lines 178-179 compute), while lines 174-179 raise `KeyError` on `r:id`,
and `Parse` on `sampleRoot` stops at that node. Where `r:id` is present, or the producer
is not `xl`, the id is the one the claim gives. -/
theorem C1_xl_node_without_rid_raises :
    xlCondition "xl" [("name", "B"), ("sheetId", "5")] = .error (.KeyError "r:id") ∧
    resolveId "xl" [("name", "B"), ("sheetId", "5")] = .error (.KeyError "r:id") ∧
    otherBranch [("name", "B"), ("sheetId", "5")] = .ok 5 ∧
    resolveId "unknown" [("name", "B"), ("sheetId", "5")] = .ok 5 ∧
    resolveId "xl" [("name", "A"), ("sheetId", "1"), ("r:id", "rId7")] = .ok 7 ∧
    resolveId "xl" [("name", "A"), ("sheetId", "1"), ("r:id", "r7")] = .ok 1 ∧
    resolveId "unknown" [("name", "A"), ("r:id", "rId7")] = .ok 7 ∧
    emptyWorkbook.Parse ⟨.element sampleRoot⟩ =
      ({ Sheets := [⟨"A", 7⟩], Date1904 := true, appName := "xl" },
        some (.KeyError "r:id")) := by
  refine ⟨by decide, by decide, by decide, by decide, by decide, by decide, by decide,
    by decide⟩

/-! ## The format tables -/

/-- C5, as stated, fails at ids 12 and 13: `STANDARD_FORMATS` maps them to the fraction
codes, which are not keys of `FORMATS`. -/
theorem C5_counterexample :
    STANDARD_FORMATS.lookup 12 = some "# ?/?" ∧ FORMATS.lookup "# ?/?" = none ∧
    STANDARD_FORMATS.lookup 13 = some "# ??/??" ∧ FORMATS.lookup "# ??/??" = none := by
  decide

/-- C5, amended. Every id that `STANDARD_FORMATS` defines lies in 0-49, and its format
code is a key of `FORMATS` exactly when the id is neither 12 nor 13: for every other
built-in id the lookup of the code in `FORMATS` returns a tabulated type, for 12 and 13 it
finds nothing. -/
theorem C5_standard_codes_in_FORMATS (id : Int) (code : String)
    (h : STANDARD_FORMATS.lookup id = some code) :
    0 ≤ id ∧ id ≤ 49 ∧
    (id ≠ 12 → id ≠ 13 → ∃ t, FORMATS.lookup code = some t) ∧
    (id = 12 ∨ id = 13 → FORMATS.lookup code = none) := by
  have hall : ∀ p ∈ STANDARD_FORMATS, 0 ≤ p.1 ∧ p.1 ≤ 49 ∧
      (p.1 ≠ 12 → p.1 ≠ 13 → (FORMATS.lookup p.2).isSome = true) ∧
      (p.1 = 12 ∨ p.1 = 13 → FORMATS.lookup p.2 = none) := by
    decide
  obtain ⟨h1, h2, h3, h4⟩ := hall (id, code) (mem_of_lookup_eq_some _ _ _ h)
  refine ⟨h1, h2, ?_, h4⟩
  intro h12 h13
  exact Option.isSome_iff_exists.mp (h3 h12 h13)

/-- C5 amended, at id 14: its code `mm-dd-yy` is the key of a date. -/
theorem C5_standard_codes_in_FORMATS_witness :
    STANDARD_FORMATS.lookup 14 = some "mm-dd-yy" ∧
    ∃ t, FORMATS.lookup "mm-dd-yy" = some t :=
  ⟨by decide,
   (C5_standard_codes_in_FORMATS 14 "mm-dd-yy" (by decide)).2.2.1 (by decide) (by decide)⟩

/-- C7. Every key of `FORMATS` and every value of `STANDARD_FORMATS` is unchanged by
lower-casing; hence a lower-cased format code equals a key of `FORMATS` exactly when it
equals that key lower-cased, and two codes that differ only in case find the same entry. -/
theorem C7_format_codes_lower_case :
    (∀ p ∈ FORMATS, lower p.1 = p.1) ∧
    (∀ p ∈ STANDARD_FORMATS, lower p.2 = p.2) ∧
    (∀ (code : String), ∀ p ∈ FORMATS, (lower code = p.1 ↔ lower code = lower p.1)) ∧
    (∀ c d : String, lower c = lower d →
      FORMATS.lookup (lower c) = FORMATS.lookup (lower d)) := by
  have hk : ∀ p ∈ FORMATS, lower p.1 = p.1 := by decide
  have hv : ∀ p ∈ STANDARD_FORMATS, lower p.2 = p.2 := by decide
  refine ⟨hk, hv, ?_, ?_⟩
  · intro code p hp
    rw [hk p hp]
  · intro c d h
    rw [h]

/-- C7 at the code `MM-DD-YY`: lower-cased it is the key `mm-dd-yy`. -/
theorem C7_format_codes_lower_case_witness :
    lower "mm-dd-yy" = "mm-dd-yy" ∧
    FORMATS.lookup (lower "MM-DD-YY") = FORMATS.lookup (lower "mm-dd-yy") :=
  ⟨C7_format_codes_lower_case.1 ("mm-dd-yy", "date") (by decide),
   C7_format_codes_lower_case.2.2.2 "MM-DD-YY" "mm-dd-yy" (by decide)⟩

/-- C10, the code at the failing input. The code `yyyy\-mm\-dd` with one backslash
before each hyphen is not a key of `FORMATS`: the key spelled at line 66 has two
backslashes before each hyphen (four in all), while the key of line 69 has one backslash
before its space and is a date. -/
theorem C10_escaped_date_codes :
    FORMATS.lookup "yyyy\\\\-mm\\\\-dd" = some "date" ∧
    FORMATS.lookup "yyyy\\-mm\\-dd" = none ∧
    FORMATS.lookup "dd/mm/yy\\ hh:mm" = some "date" ∧
    ("yyyy\\\\-mm\\\\-dd".data.filter (fun c => c = Char.ofNat 92)).length = 4 ∧
    ("yyyy\\-mm\\-dd".data.filter (fun c => c = Char.ofNat 92)).length = 2 ∧
    ("dd/mm/yy\\ hh:mm".data.filter (fun c => c = Char.ofNat 92)).length = 1 := by
  decide

end Xlsx2csv
